import Mathlib

/-!
Shallow embedding of the financial DCF demo core
(`src/core/models.py`, `src/core/dcf.py`, `src/core/scenarios.py`,
`src/agents/sensitivity_agent.py`).  Python floats are modelled as exact
rationals; a Python function that can raise is modelled as returning
`Option`.
-/

namespace DCF

section
attribute [local semireducible] Rat.add Rat.mul Rat.inv Rat.sub

/-- `Assumptions` data model from `src/core/models.py`. -/
structure Assumptions where
  starting_revenue : ℚ
  growth_rate : ℚ
  gross_margin : ℚ
  opex_pct : ℚ
  tax_rate : ℚ
  wacc : ℚ
  capex_pct : ℚ
  delta_nwc_pct : ℚ
  terminal_growth : ℚ
  years : ℕ
  optimistic_growth_delta : ℚ
  pessimistic_growth_delta : ℚ
  optimistic_wacc_delta : ℚ
  pessimistic_wacc_delta : ℚ
deriving DecidableEq

/-- `ScenarioParams` data model from `src/core/models.py`. -/
structure ScenarioParams where
  name : String
  growth_rate : ℚ
  wacc : ℚ
deriving DecidableEq

/-- `Projection` container from `src/core/dcf.py`. -/
structure Projection where
  revenues : List ℚ
  fcff : List ℚ
  terminal_value : ℚ
deriving DecidableEq

/-- `ScenarioResult` data model from `src/core/models.py`. -/
structure ScenarioResult where
  name : String
  wacc : ℚ
  npv : ℚ
  irr : Option ℚ
  revenues : List ℚ
  fcff : List ℚ
  terminal_value : ℚ
deriving DecidableEq

/-- `SensitivityPoint` data model from `src/core/models.py`. -/
structure SensitivityPoint where
  wacc : ℚ
  npv : ℚ
deriving DecidableEq

/-! ## Construction-time validation (`src/core/models.py`)

pydantic v1 semantics: field constraints are checked in declaration order;
a custom validator for a field sees in `values` only the fields declared
(and successfully validated) before it. -/

/-- The per-field range constraints declared with `Field(...)` on
`Assumptions`. -/
def fieldRangesOk (a : Assumptions) : Bool :=
  decide (0 < a.starting_revenue) &&
  decide (-(1/2) ≤ a.growth_rate && a.growth_rate ≤ 1) &&
  decide (0 < a.gross_margin && a.gross_margin < 1) &&
  decide (0 < a.opex_pct && a.opex_pct < 1) &&
  decide (0 ≤ a.tax_rate && a.tax_rate < 1) &&
  decide (0 < a.wacc && a.wacc < 1) &&
  decide (0 ≤ a.capex_pct && a.capex_pct < 1) &&
  decide (-1 ≤ a.delta_nwc_pct && a.delta_nwc_pct < 1) &&
  decide (-(1/20) ≤ a.terminal_growth && a.terminal_growth < 1/5) &&
  decide (1 ≤ a.years && a.years ≤ 10) &&
  decide (0 ≤ a.optimistic_growth_delta && a.optimistic_growth_delta ≤ 1/5) &&
  decide (0 ≤ a.pessimistic_growth_delta && a.pessimistic_growth_delta ≤ 1/5) &&
  decide (0 ≤ a.optimistic_wacc_delta && a.optimistic_wacc_delta ≤ 1/10) &&
  decide (0 ≤ a.pessimistic_wacc_delta && a.pessimistic_wacc_delta ≤ 1/10)

/-- The `validate_wacc` validator body: it reads
`values.get("terminal_growth", 0.0)`, and since `terminal_growth` is
declared after `wacc`, the default `0.0` is always used. -/
def waccValidatorOk (a : Assumptions) : Bool :=
  !decide (a.wacc ≤ 0)

/-- The shared body of the `validate_margin_sum` validator: raises when
`gross_margin` is truthy (nonzero), `opex_pct` is truthy (nonzero) and
their sum is ≥ 0.99. -/
def marginSumCheck (gross opex : ℚ) : Bool :=
  !(decide (gross ≠ 0) && decide (opex ≠ 0) && decide (99/100 ≤ gross + opex))

/-- `validate_margin_sum` as run on the `gross_margin` field: `values`
does not yet contain `gross_margin` (it is being validated) nor
`opex_pct` (declared later), so `gross_margin` falls back to the default
`0.0` and `opex_pct` falls back to `value` (the gross margin under
validation). -/
def marginValidatorGross (a : Assumptions) : Bool :=
  marginSumCheck 0 a.gross_margin

/-- `validate_margin_sum` as run on the `opex_pct` field: `values`
contains `gross_margin` but not `opex_pct`, which falls back to the
default `0.0`. -/
def marginValidatorOpex (a : Assumptions) : Bool :=
  marginSumCheck a.gross_margin 0

/-- Whether an `Assumptions` instance passes pydantic construction, as
the validators are actually written. -/
def assumptionsValid (a : Assumptions) : Bool :=
  fieldRangesOk a && waccValidatorOk a && marginValidatorGross a &&
    marginValidatorOpex a

/-- The `ScenarioParams` validators: `validate_growth` rejects growth
below −0.5, `validate_wacc` rejects WACC outside (0,1).  Construction is
modelled as returning `none` when a validator raises. -/
def mkScenarioParams (name : String) (growth_rate wacc : ℚ) :
    Option ScenarioParams :=
  if growth_rate < -(1/2) then none
  else if wacc ≤ 0 ∨ 1 ≤ wacc then none
  else some ⟨name, growth_rate, wacc⟩

/-! ## Scenario expansion (`src/core/scenarios.py`) -/

/-- `build_scenarios`: expand base assumptions into Base, Optimistic and
Pessimistic scenario parameters, each going through the `ScenarioParams`
validators. -/
def buildScenarios (a : Assumptions) : Option (List ScenarioParams) := do
  let base ← mkScenarioParams "Base" a.growth_rate a.wacc
  let optimistic ← mkScenarioParams "Optimistic"
    (a.growth_rate + a.optimistic_growth_delta)
    (max (1/100) (a.wacc - a.optimistic_wacc_delta))
  let pessimistic ← mkScenarioParams "Pessimistic"
    (a.growth_rate - a.pessimistic_growth_delta)
    (min (99/100) (a.wacc + a.pessimistic_wacc_delta))
  some [base, optimistic, pessimistic]

/-! ## Valuation engine (`src/core/dcf.py`) -/

/-- The loop body of `_project_revenues`: starting from `current`,
multiply by `1+g` and append, once per remaining year. -/
def projectRevenuesAux (growth_rate : ℚ) : ℚ → ℕ → List ℚ
  | _, 0 => []
  | current, n + 1 =>
    let next := current * (1 + growth_rate)
    next :: projectRevenuesAux growth_rate next n

/-- `_project_revenues`. -/
def projectRevenues (start growth_rate : ℚ) (years : ℕ) : List ℚ :=
  projectRevenuesAux growth_rate start years

/-- `_calculate_fcff`: FCFF per projected revenue. -/
def calculateFCFF (a : Assumptions) (revenues : List ℚ) : List ℚ :=
  revenues.map fun revenue =>
    let gross_profit := revenue * a.gross_margin
    let opex := revenue * a.opex_pct
    let ebit := gross_profit - opex
    let nopat := ebit * (1 - a.tax_rate)
    let capex := revenue * a.capex_pct
    let delta_nwc := revenue * a.delta_nwc_pct
    nopat - capex - delta_nwc

/-- `_terminal_value`: raises (`none`) when WACC ≤ terminal growth. -/
def terminalValue (last_fcff wacc terminal_growth : ℚ) : Option ℚ :=
  if wacc ≤ terminal_growth then none
  else some (last_fcff * (1 + terminal_growth) / (wacc - terminal_growth))

/-- The loop body of `_discount`: value at list offset `k-1` is divided
by `(1+wacc)^k`, the exponent starting at 1 for the head. -/
def discountAux (wacc : ℚ) : List ℚ → ℕ → List ℚ
  | [], _ => []
  | v :: vs, k => v / (1 + wacc) ^ k :: discountAux wacc vs (k + 1)

/-- `_discount`. -/
def discount (values : List ℚ) (wacc : ℚ) : List ℚ :=
  discountAux wacc values 1

/-- The inner accumulation loop of `_irr`: one pass over the enumerated
cash flows updating the running NPV and derivative, the derivative
skipping period 0. -/
def irrSums (rate : ℚ) : List ℚ → ℕ → ℚ × ℚ → ℚ × ℚ
  | [], _, acc => acc
  | value :: rest, period, (npv, deriv) =>
    irrSums rate rest (period + 1)
      (npv + value / (1 + rate) ^ period,
       if 0 < period then
         deriv - period * value / (1 + rate) ^ (period + 1)
       else deriv)

/-- The Newton iteration of `_irr`, with the remaining iteration count
as fuel; exhausting the fuel (the `for` loop ending) returns `none`. -/
def irrLoop (cash_flows : List ℚ) : ℚ → ℕ → Option ℚ
  | _, 0 => none
  | rate, fuel + 1 =>
    let acc := irrSums rate cash_flows 0 (0, 0)
    let npv := acc.1
    let deriv := acc.2
    if |deriv| < 1/1000000000 then none
    else
      let new_rate := rate - npv / deriv
      if |new_rate - rate| < 1/1000000 then
        if -(999/1000) < new_rate then some new_rate else none
      else irrLoop cash_flows new_rate fuel

/-- `_irr`: `none` on an empty sequence or when there is no sign change,
otherwise Newton-Raphson from rate 0.10 with at most 100 iterations. -/
def irr (cash_flows : List ℚ) : Option ℚ :=
  if cash_flows.isEmpty then none
  else if cash_flows.any (fun v => decide (0 < v)) &&
      cash_flows.any (fun v => decide (v < 0)) then
    irrLoop cash_flows (1/10) 100
  else none

/-- `project_cash_flows`: `fcff_values[-1]` on an empty list and the
terminal-value domain error are both modelled as `none`. -/
def projectCashFlows (a : Assumptions) (s : ScenarioParams) :
    Option Projection := do
  let revenues := projectRevenues a.starting_revenue s.growth_rate a.years
  let fcff_values := calculateFCFF a revenues
  let last ← fcff_values.getLast?
  let terminal ← terminalValue last s.wacc a.terminal_growth
  some ⟨revenues, fcff_values, terminal⟩

/-- `run_dcf`. -/
def run_dcf (a : Assumptions) (s : ScenarioParams) :
    Option ScenarioResult := do
  let projection ← projectCashFlows a s
  let discounted_fcff := discount projection.fcff s.wacc
  let discounted_terminal :=
    projection.terminal_value / (1 + s.wacc) ^ a.years
  let npv := discounted_fcff.sum + discounted_terminal
  let initial_outlay := -a.starting_revenue
  some
    { name := s.name
      wacc := s.wacc
      npv := npv
      irr := irr (initial_outlay :: (projection.fcff ++ [projection.terminal_value]))
      revenues := projection.revenues
      fcff := projection.fcff
      terminal_value := projection.terminal_value }

/-! ## Sensitivity sweep (`src/agents/sensitivity_agent.py`)

`np.round` rounds half to even; `np.arange(start, stop, step)` yields
`start + k*step` for `0 ≤ k < ⌈(stop − start)/step⌉`. -/

/-- Round half to even, the rounding mode of `np.round`. -/
def roundHalfEven (y : ℚ) : ℤ :=
  if y - ⌊y⌋ < 1/2 then ⌊y⌋
  else if 1/2 < y - ⌊y⌋ then ⌊y⌋ + 1
  else if ⌊y⌋ % 2 = 0 then ⌊y⌋ else ⌊y⌋ + 1

/-- `np.round(x, decimals=3)` on an exact rational. -/
def round3 (x : ℚ) : ℚ :=
  (roundHalfEven (1000 * x) : ℚ) / 1000

/-- Lower end of the WACC sweep: `max(0.02, scenario.wacc − 0.04)`. -/
def sweepStart (wacc : ℚ) : ℚ := max (2/100) (wacc - 4/100)

/-- Upper end of the WACC sweep: `min(0.3, scenario.wacc + 0.04)`. -/
def sweepStop (wacc : ℚ) : ℚ := min (3/10) (wacc + 4/100)

/-- Number of points `np.arange(start, stop + 0.0001, 0.005)` yields. -/
def sweepCount (wacc : ℚ) : ℕ :=
  (⌈(sweepStop wacc + 1/10000 - sweepStart wacc) * 200⌉).toNat

/-- The swept WACC values:
`np.round(np.arange(start, stop + 0.0001, 0.005), decimals=3)`. -/
def sweepWaccs (wacc : ℚ) : List ℚ :=
  (List.range (sweepCount wacc)).map fun (k : ℕ) =>
    round3 (sweepStart wacc + (k : ℚ) * (5/1000))

/-- The loop of `SensitivityAgent.run`: for each swept WACC, construct a
`ScenarioParams` with the baseline's name and growth rate (going through
its validators), run the valuation engine, and record (WACC, NPV).  A
raise anywhere is modelled as `none`. -/
def sensitivityRun (a : Assumptions) (scenario : ScenarioParams) :
    Option (List SensitivityPoint) :=
  (sweepWaccs scenario.wacc).mapM fun wacc => do
    let params ← mkScenarioParams scenario.name scenario.growth_rate wacc
    let result ← run_dcf a params
    some (⟨wacc, result.npv⟩ : SensitivityPoint)

/-! ## Spec-worded IRR Newton solver

These definitions follow the wording of the specification's IRR
algorithm (section 4.3 step 6), to be compared with the embedding of
`_irr` above: NPV and its derivative are written as direct sums over the
enumerated flows, the derivative omitting the period-0 term. -/

/-- Modelled from the spec's words: NPV of the flow sequence at a rate,
flow at period `p` discounted by `(1+rate)^p`. -/
def specNpv (cash_flows : List ℚ) (rate : ℚ) : ℚ :=
  (cash_flows.enum.map fun pv => pv.2 / (1 + rate) ^ pv.1).sum

/-- Modelled from the spec's words: first derivative of `specNpv` with
respect to the rate, with the period-0 term omitted. -/
def specDeriv (cash_flows : List ℚ) (rate : ℚ) : ℚ :=
  (cash_flows.enum.map fun pv =>
    if pv.1 = 0 then 0
    else -(pv.1 * pv.2 / (1 + rate) ^ (pv.1 + 1))).sum

/-- Modelled from the spec's words: Newton-Raphson on `specNpv`.  Stop
with no result when the derivative magnitude is below 1e-9; on
convergence (|rate' − rate| < 1e-6) return rate' when above −0.999 and
no result otherwise; exhausting the iteration budget gives no result. -/
def specNewton (cash_flows : List ℚ) : ℚ → ℕ → Option ℚ
  | _, 0 => none
  | rate, fuel + 1 =>
    let npv := specNpv cash_flows rate
    let deriv := specDeriv cash_flows rate
    if |deriv| < 1/1000000000 then none
    else
      let new_rate := rate - npv / deriv
      if |new_rate - rate| < 1/1000000 then
        if -(999/1000) < new_rate then some new_rate else none
      else specNewton cash_flows new_rate fuel

/-! ## Basic lemmas about the projection -/

theorem projectRevenuesAux_length (g : ℚ) :
    ∀ (n : ℕ) (c : ℚ), (projectRevenuesAux g c n).length = n := by
  intro n
  induction n with
  | zero => intro c; rfl
  | succ n ih =>
    intro c
    simp [projectRevenuesAux, ih]

theorem projectRevenuesAux_getElem? (g : ℚ) :
    ∀ (n i : ℕ) (c : ℚ), i < n →
      (projectRevenuesAux g c n)[i]? = some (c * (1 + g) ^ (i + 1)) := by
  intro n
  induction n with
  | zero => intro i c h; omega
  | succ n ih =>
    intro i c h
    cases i with
    | zero => simp [projectRevenuesAux]
    | succ i =>
      have hi : i < n := by omega
      simp only [projectRevenuesAux, List.getElem?_cons_succ]
      rw [ih i (c * (1 + g)) hi]
      ring_nf

theorem projectRevenues_length (start g : ℚ) (years : ℕ) :
    (projectRevenues start g years).length = years :=
  projectRevenuesAux_length g years start

theorem projectRevenues_getElem? (start g : ℚ) (years i : ℕ)
    (h : i < years) :
    (projectRevenues start g years)[i]? =
      some (start * (1 + g) ^ (i + 1)) :=
  projectRevenuesAux_getElem? g years i start h

theorem calculateFCFF_length (a : Assumptions) (l : List ℚ) :
    (calculateFCFF a l).length = l.length := by
  simp [calculateFCFF]

theorem calculateFCFF_getElem? (a : Assumptions) (l : List ℚ) (i : ℕ) :
    (calculateFCFF a l)[i]? = (l[i]?).map fun revenue =>
      (revenue * a.gross_margin - revenue * a.opex_pct) * (1 - a.tax_rate)
        - revenue * a.capex_pct - revenue * a.delta_nwc_pct := by
  simp [calculateFCFF, List.getElem?_map]

/-- The engine's success shape: with at least one projection year and
scenario WACC above terminal growth, `run_dcf` returns a result. -/
theorem run_dcf_some (a : Assumptions) (s : ScenarioParams)
    (hy : 1 ≤ a.years) (hw : a.terminal_growth < s.wacc) :
    ∃ lf,
      (calculateFCFF a
        (projectRevenues a.starting_revenue s.growth_rate a.years)).getLast?
        = some lf ∧
      run_dcf a s = some
        { name := s.name
          wacc := s.wacc
          npv := (discount (calculateFCFF a
              (projectRevenues a.starting_revenue s.growth_rate a.years))
              s.wacc).sum +
            lf * (1 + a.terminal_growth) / (s.wacc - a.terminal_growth) /
              (1 + s.wacc) ^ a.years
          irr := irr (-a.starting_revenue ::
            (calculateFCFF a
              (projectRevenues a.starting_revenue s.growth_rate a.years) ++
              [lf * (1 + a.terminal_growth) / (s.wacc - a.terminal_growth)]))
          revenues := projectRevenues a.starting_revenue s.growth_rate a.years
          fcff := calculateFCFF a
            (projectRevenues a.starting_revenue s.growth_rate a.years)
          terminal_value :=
            lf * (1 + a.terminal_growth) / (s.wacc - a.terminal_growth) } := by
  set revenues := projectRevenues a.starting_revenue s.growth_rate a.years
    with hrev
  set fcff := calculateFCFF a revenues with hfcff
  have hlen : fcff.length = a.years := by
    rw [hfcff, calculateFCFF_length, hrev, projectRevenues_length]
  have hne : fcff ≠ [] := by
    intro hnil
    rw [hnil] at hlen
    simp at hlen
    omega
  obtain ⟨lf, hlf⟩ : ∃ lf, fcff.getLast? = some lf := by
    cases hg : fcff.getLast? with
    | none => exact absurd (List.getLast?_eq_none_iff.mp hg) hne
    | some lf => exact ⟨lf, rfl⟩
  refine ⟨lf, hlf, ?_⟩
  have hnw : ¬ s.wacc ≤ a.terminal_growth := not_le.mpr hw
  simp [run_dcf, projectCashFlows, ← hrev, ← hfcff, hlf, terminalValue, hnw]

/-- C1: with scenario WACC above terminal growth (and the model's
`years ≥ 1` bound), the engine succeeds; the result's revenue and FCFF
sequences each have exactly `years` entries, revenue at year `t = i+1`
is `starting_revenue * (1+g)^t`, and each FCFF entry is the after-tax
operating profit of its revenue minus capex and ΔNWC; NPV is present in
every result and only IRR is optional. -/
theorem claim1_engine_projection_shape (a : Assumptions)
    (s : ScenarioParams) (hy : 1 ≤ a.years)
    (hw : a.terminal_growth < s.wacc) :
    ∃ r, run_dcf a s = some r ∧
      r.revenues.length = a.years ∧
      r.fcff.length = a.years ∧
      (∀ i, i < a.years →
        r.revenues[i]? =
          some (a.starting_revenue * (1 + s.growth_rate) ^ (i + 1))) ∧
      (∀ (i : ℕ) (rev : ℚ), r.revenues[i]? = some rev →
        r.fcff[i]? = some
          ((rev * a.gross_margin - rev * a.opex_pct) * (1 - a.tax_rate)
            - rev * a.capex_pct - rev * a.delta_nwc_pct)) := by
  obtain ⟨lf, hlf, hrun⟩ := run_dcf_some a s hy hw
  refine ⟨_, hrun, ?_, ?_, ?_, ?_⟩
  · exact projectRevenues_length _ _ _
  · rw [calculateFCFF_length, projectRevenues_length]
  · intro i hi
    exact projectRevenues_getElem? _ _ _ _ hi
  · intro i rev hrev
    rw [calculateFCFF_getElem?, hrev]
    rfl

/-- Witness for C1 at the spec's example assumptions and base
scenario. -/
theorem claim1_engine_projection_shape_witness :
    (1 ≤ (5 : ℕ) ∧ (2/100 : ℚ) < 1/10) ∧
      ∃ r, run_dcf
        { starting_revenue := 1000000, growth_rate := 8/100
          gross_margin := 1/2, opex_pct := 3/10, tax_rate := 21/100
          wacc := 1/10, capex_pct := 5/100, delta_nwc_pct := 2/100
          terminal_growth := 2/100, years := 5
          optimistic_growth_delta := 2/100
          pessimistic_growth_delta := 2/100
          optimistic_wacc_delta := 1/100
          pessimistic_wacc_delta := 1/100 }
        { name := "Base", growth_rate := 8/100, wacc := 1/10 } = some r ∧
      r.revenues.length = 5 ∧
      r.fcff.length = 5 ∧
      (∀ i, i < 5 →
        r.revenues[i]? = some (1000000 * (1 + 8/100 : ℚ) ^ (i + 1))) ∧
      (∀ (i : ℕ) (rev : ℚ), r.revenues[i]? = some rev →
        r.fcff[i]? = some
          ((rev * (1/2) - rev * (3/10)) * (1 - 21/100)
            - rev * (5/100) - rev * (2/100))) :=
  ⟨⟨by decide, by norm_num⟩,
    claim1_engine_projection_shape _ _ (by decide) (by norm_num)⟩

/-- C2: the terminal-value computation fails exactly when WACC ≤
terminal growth, and otherwise returns the Gordon-growth value
`FCFF_last (1+g) / (WACC − g)`; `terminalValue` itself performs the
check, independently of any earlier assumption validation. -/
theorem claim2_terminal_value_domain (last_fcff wacc g : ℚ) :
    (terminalValue last_fcff wacc g = none ↔ wacc ≤ g) ∧
      (g < wacc → terminalValue last_fcff wacc g =
        some (last_fcff * (1 + g) / (wacc - g))) := by
  constructor
  · constructor
    · intro h
      by_contra hc
      push_neg at hc
      simp [terminalValue, not_le.mpr hc] at h
    · intro h
      simp [terminalValue, h]
  · intro h
    simp [terminalValue, not_le.mpr h]

/-- Witness for C2: terminal value at FCFF 100, WACC 0.10, growth
0.02. -/
theorem claim2_terminal_value_domain_witness :
    terminalValue 100 (1/10) (1/50) = some 1275 := by
  have h := (claim2_terminal_value_domain 100 (1/10) (1/50)).2 (by norm_num)
  rw [h]
  norm_num

/-- C3: when the cash flows have no sign change (never both a positive
and a negative flow), the IRR solver answers no-result before any
Newton iteration. -/
theorem claim3_irr_no_sign_change (cash_flows : List ℚ)
    (h : ¬((∃ x ∈ cash_flows, 0 < x) ∧ ∃ x ∈ cash_flows, x < 0)) :
    irr cash_flows = none := by
  unfold irr
  by_cases hb : cash_flows.isEmpty
  · simp [hb]
  · have hcond : (cash_flows.any (fun v => decide (0 < v)) &&
        cash_flows.any fun v => decide (v < 0)) = false := by
      by_contra hc
      rw [Bool.not_eq_false, Bool.and_eq_true, List.any_eq_true,
        List.any_eq_true] at hc
      refine h ⟨?_, ?_⟩
      · obtain ⟨x, hx, hx0⟩ := hc.1
        exact ⟨x, hx, of_decide_eq_true hx0⟩
      · obtain ⟨x, hx, hx0⟩ := hc.2
        exact ⟨x, hx, of_decide_eq_true hx0⟩
    simp [hb, hcond]

/-- Witness for C3: an all-positive flow sequence has no IRR. -/
theorem claim3_irr_no_sign_change_witness :
    irr [1, 2, 3] = none :=
  claim3_irr_no_sign_change [1, 2, 3] (by decide)

/-! ## The IRR loop accumulators agree with the spec-worded sums -/

theorem irrSums_eq (r : ℚ) :
    ∀ (l : List ℚ) (p : ℕ) (acc : ℚ × ℚ),
      irrSums r l p acc =
        (acc.1 + ((l.enumFrom p).map fun pv =>
            pv.2 / (1 + r) ^ pv.1).sum,
         acc.2 + ((l.enumFrom p).map fun pv =>
            if pv.1 = 0 then 0
            else -(pv.1 * pv.2 / (1 + r) ^ (pv.1 + 1))).sum) := by
  intro l
  induction l with
  | nil => intro p acc; simp [irrSums]
  | cons v rest ih =>
    intro p acc
    obtain ⟨npv, deriv⟩ := acc
    rw [irrSums, ih]
    simp only [List.enumFrom, List.map_cons, List.sum_cons, Prod.mk.injEq]
    constructor
    · ring
    · rcases Nat.eq_zero_or_pos p with hp | hp
      · subst hp
        simp
      · have hp0 : ¬ p = 0 := Nat.pos_iff_ne_zero.mp hp
        simp only [hp, if_pos, hp0, if_neg, if_false]
        ring

theorem irrSums_fst (cf : List ℚ) (r : ℚ) :
    (irrSums r cf 0 (0, 0)).1 = specNpv cf r := by
  rw [irrSums_eq, specNpv, List.enum]
  simp

theorem irrSums_snd (cf : List ℚ) (r : ℚ) :
    (irrSums r cf 0 (0, 0)).2 = specDeriv cf r := by
  rw [irrSums_eq, specDeriv, List.enum]
  simp

theorem irrLoop_eq_specNewton (cf : List ℚ) :
    ∀ (fuel : ℕ) (rate : ℚ), irrLoop cf rate fuel = specNewton cf rate fuel := by
  intro fuel
  induction fuel with
  | zero => intro rate; rfl
  | succ fuel ih =>
    intro rate
    rw [irrLoop, specNewton]
    simp only [irrSums_fst, irrSums_snd]
    split_ifs with h1 h2 h3
    · rfl
    · rfl
    · rfl
    · exact ih _

/-- C4: on every flow sequence with a sign change, the IRR solver is
exactly the Newton-Raphson procedure of the specification: start at
rate 0.10, at most 100 iterations, derivative omitting period 0,
no-result on a stalled derivative (|deriv| < 1e-9), convergence at
|rate' − rate| < 1e-6 returning rate' only above −0.999, and no-result
when the iteration budget is exhausted. -/
theorem claim4_irr_newton_refinement (cash_flows : List ℚ)
    (hpos : ∃ x ∈ cash_flows, 0 < x) (hneg : ∃ x ∈ cash_flows, x < 0) :
    irr cash_flows = specNewton cash_flows (1/10) 100 := by
  have hne : ¬ cash_flows.isEmpty := by
    obtain ⟨x, hx, _⟩ := hpos
    intro hc
    rw [List.isEmpty_iff] at hc
    subst hc
    exact absurd hx (List.not_mem_nil x)
  have hcond : (cash_flows.any (fun v => decide (0 < v)) &&
      cash_flows.any fun v => decide (v < 0)) = true := by
    rw [Bool.and_eq_true, List.any_eq_true, List.any_eq_true]
    obtain ⟨x, hx, hx0⟩ := hpos
    obtain ⟨y, hy, hy0⟩ := hneg
    exact ⟨⟨x, hx, decide_eq_true hx0⟩, ⟨y, hy, decide_eq_true hy0⟩⟩
  rw [irr, if_neg hne, if_pos hcond]
  exact irrLoop_eq_specNewton cash_flows 100 (1/10)

/-- Witness for C4 on the flow sequence [−1, 2]. -/
theorem claim4_irr_newton_refinement_witness :
    ((∃ x ∈ [(-1 : ℚ), 2], 0 < x) ∧ ∃ x ∈ [(-1 : ℚ), 2], x < 0) ∧
      irr [(-1 : ℚ), 2] = specNewton [(-1 : ℚ), 2] (1/10) 100 :=
  ⟨⟨by decide, by decide⟩,
    claim4_irr_newton_refinement _ (by decide) (by decide)⟩

/-! ## Margin-headroom validation (C5) -/

/-- An assumption set whose gross margin plus opex (1.2) leaves no room
for profit while every individual field is in range. -/
def marginBustAssumptions : Assumptions :=
  { starting_revenue := 100, growth_rate := 1/10
    gross_margin := 3/5, opex_pct := 3/5, tax_rate := 1/5
    wacc := 1/10, capex_pct := 1/20, delta_nwc_pct := 1/50
    terminal_growth := 1/50, years := 5
    optimistic_growth_delta := 1/100, pessimistic_growth_delta := 1/100
    optimistic_wacc_delta := 1/100, pessimistic_wacc_delta := 1/100 }

/-- C5 (evidence of a code bug): the margin-sum validator as written can
never raise — at each of its two invocations one of the two operands
falls back to the falsy default `0.0` — so construction accepts
`gross_margin = opex_pct = 0.6` even though their sum 1.2 exceeds the
0.99 headroom bound the validator was meant to enforce. -/
theorem claim5_margin_sum_validator_dead :
    (∀ a : Assumptions,
      marginValidatorGross a = true ∧ marginValidatorOpex a = true) ∧
    assumptionsValid marginBustAssumptions = true ∧
    (99/100 : ℚ) ≤ marginBustAssumptions.gross_margin +
      marginBustAssumptions.opex_pct := by
  refine ⟨fun a => ⟨?_, ?_⟩, by decide, by norm_num [marginBustAssumptions]⟩
  · simp [marginValidatorGross, marginSumCheck]
  · simp [marginValidatorOpex, marginSumCheck]

/-! ## Scenario expansion (C6, C7) -/

theorem mkScenarioParams_some_inv {n : String} {g w : ℚ}
    {p : ScenarioParams} (h : mkScenarioParams n g w = some p) :
    p = ⟨n, g, w⟩ := by
  unfold mkScenarioParams at h
  split_ifs at h
  exact (Option.some_injective _ h).symm

/-- A valid assumption set whose pessimistic growth delta pushes the
pessimistic scenario's growth below the −0.5 bound of the
`ScenarioParams` validator. -/
def lowGrowthAssumptions : Assumptions :=
  { starting_revenue := 100, growth_rate := -(2/5)
    gross_margin := 1/2, opex_pct := 3/10, tax_rate := 1/5
    wacc := 1/10, capex_pct := 1/20, delta_nwc_pct := 1/50
    terminal_growth := 1/50, years := 5
    optimistic_growth_delta := 1/100, pessimistic_growth_delta := 1/5
    optimistic_wacc_delta := 1/100, pessimistic_wacc_delta := 1/100 }

/-- C6 counterexample: on a validated assumption set with growth −0.4
and pessimistic growth delta 0.2, scenario expansion does not produce
three scenarios — the pessimistic `ScenarioParams` validator rejects
growth −0.6 and `build_scenarios` raises. -/
theorem claim6_counterexample :
    assumptionsValid lowGrowthAssumptions = true ∧
      buildScenarios lowGrowthAssumptions = none := by
  constructor
  · decide
  · decide

/-- C6 (amended): when the pessimistic growth also stays at or above
−0.5 (so that the derived `ScenarioParams` validators all pass),
scenario expansion deterministically produces exactly the three
scenarios Base, Optimistic, Pessimistic with the claimed growth rates
and clamped WACCs. -/
theorem claim6_scenario_expansion (a : Assumptions)
    (hg : -(1/2) ≤ a.growth_rate) (hw0 : 0 < a.wacc) (hw1 : a.wacc < 1)
    (hogd : 0 ≤ a.optimistic_growth_delta)
    (howd : 0 ≤ a.optimistic_wacc_delta)
    (hpwd : 0 ≤ a.pessimistic_wacc_delta)
    (hpg : -(1/2) ≤ a.growth_rate - a.pessimistic_growth_delta) :
    buildScenarios a = some
      [⟨"Base", a.growth_rate, a.wacc⟩,
       ⟨"Optimistic", a.growth_rate + a.optimistic_growth_delta,
         max (1/100) (a.wacc - a.optimistic_wacc_delta)⟩,
       ⟨"Pessimistic", a.growth_rate - a.pessimistic_growth_delta,
         min (99/100) (a.wacc + a.pessimistic_wacc_delta)⟩] := by
  have hb : mkScenarioParams "Base" a.growth_rate a.wacc =
      some ⟨"Base", a.growth_rate, a.wacc⟩ := by
    rw [mkScenarioParams, if_neg (not_lt.mpr hg),
      if_neg (not_or.mpr ⟨not_le.mpr hw0, not_le.mpr hw1⟩)]
  have ho : mkScenarioParams "Optimistic"
      (a.growth_rate + a.optimistic_growth_delta)
      (max (1/100) (a.wacc - a.optimistic_wacc_delta)) =
      some ⟨"Optimistic", a.growth_rate + a.optimistic_growth_delta,
        max (1/100) (a.wacc - a.optimistic_wacc_delta)⟩ := by
    have hg' : -(1/2) ≤ a.growth_rate + a.optimistic_growth_delta :=
      le_trans hg (le_add_of_nonneg_right hogd)
    have hwlo : (0 : ℚ) < max (1/100) (a.wacc - a.optimistic_wacc_delta) :=
      lt_max_of_lt_left (by norm_num)
    have hwhi : max (1/100) (a.wacc - a.optimistic_wacc_delta) < 1 :=
      max_lt (by norm_num) (lt_of_le_of_lt (sub_le_self _ howd) hw1)
    rw [mkScenarioParams, if_neg (not_lt.mpr hg'),
      if_neg (not_or.mpr ⟨not_le.mpr hwlo, not_le.mpr hwhi⟩)]
  have hp : mkScenarioParams "Pessimistic"
      (a.growth_rate - a.pessimistic_growth_delta)
      (min (99/100) (a.wacc + a.pessimistic_wacc_delta)) =
      some ⟨"Pessimistic", a.growth_rate - a.pessimistic_growth_delta,
        min (99/100) (a.wacc + a.pessimistic_wacc_delta)⟩ := by
    have hwlo : (0 : ℚ) < min (99/100) (a.wacc + a.pessimistic_wacc_delta) :=
      lt_min (by norm_num) (lt_of_lt_of_le hw0 (le_add_of_nonneg_right hpwd))
    have hwhi : min (99/100) (a.wacc + a.pessimistic_wacc_delta) < 1 :=
      min_lt_of_left_lt (by norm_num)
    rw [mkScenarioParams, if_neg (not_lt.mpr hpg),
      if_neg (not_or.mpr ⟨not_le.mpr hwlo, not_le.mpr hwhi⟩)]
  rw [buildScenarios, hb, ho, hp]
  rfl

/-- Witness for C6 on the spec's scenario-expansion example. -/
theorem claim6_scenario_expansion_witness :
    buildScenarios
      { starting_revenue := 1000000, growth_rate := 8/100
        gross_margin := 1/2, opex_pct := 3/10, tax_rate := 21/100
        wacc := 1/10, capex_pct := 5/100, delta_nwc_pct := 2/100
        terminal_growth := 2/100, years := 5
        optimistic_growth_delta := 1/100, pessimistic_growth_delta := 2/100
        optimistic_wacc_delta := 1/200, pessimistic_wacc_delta := 1/100 } =
      some
        [⟨"Base", 8/100, 1/10⟩,
         ⟨"Optimistic", 8/100 + 1/100, max (1/100) (1/10 - 1/200)⟩,
         ⟨"Pessimistic", 8/100 - 2/100, min (99/100) (1/10 + 1/100)⟩] :=
  claim6_scenario_expansion _ (by norm_num) (by norm_num) (by norm_num)
    (by norm_num) (by norm_num) (by norm_num) (by norm_num)

/-- A valid assumption set with WACC 0.005, below the optimistic clamp
floor 0.01. -/
def tinyWaccAssumptions : Assumptions :=
  { starting_revenue := 100, growth_rate := 1/10
    gross_margin := 1/2, opex_pct := 3/10, tax_rate := 1/5
    wacc := 1/200, capex_pct := 1/20, delta_nwc_pct := 1/50
    terminal_growth := 1/500, years := 5
    optimistic_growth_delta := 1/100, pessimistic_growth_delta := 1/100
    optimistic_wacc_delta := 1/1000, pessimistic_wacc_delta := 1/1000 }

/-- C7 counterexample: for the valid assumption set with WACC 0.005 and
strictly positive deltas, the optimistic WACC is clamped up to 0.01,
which is NOT below the base WACC 0.005 — the claimed strict ordering
`Optimistic.wacc < Base.wacc` fails. -/
theorem claim7_counterexample :
    assumptionsValid tinyWaccAssumptions = true ∧
    (0 < tinyWaccAssumptions.optimistic_growth_delta ∧
     0 < tinyWaccAssumptions.pessimistic_growth_delta ∧
     0 < tinyWaccAssumptions.optimistic_wacc_delta ∧
     0 < tinyWaccAssumptions.pessimistic_wacc_delta) ∧
    buildScenarios tinyWaccAssumptions = some
      [⟨"Base", 1/10, 1/200⟩,
       ⟨"Optimistic", 11/100, 1/100⟩,
       ⟨"Pessimistic", 9/100, 3/500⟩] ∧
    ¬ ((1/100 : ℚ) < 1/200) := by
  refine ⟨by decide, by decide, by decide, by norm_num⟩

/-- C7 (amended): for valid assumptions with strictly positive scenario
deltas whose WACC also lies strictly between the clamp bounds 0.01 and
0.99, the expanded scenarios are strictly ordered: optimistic growth
above base above pessimistic, and optimistic WACC below base below
pessimistic. -/
theorem claim7_scenario_ordering (a : Assumptions)
    (_hv : assumptionsValid a = true)
    (h1 : 0 < a.optimistic_growth_delta)
    (h2 : 0 < a.pessimistic_growth_delta)
    (h3 : 0 < a.optimistic_wacc_delta)
    (h4 : 0 < a.pessimistic_wacc_delta)
    (hlo : 1/100 < a.wacc) (hhi : a.wacc < 99/100)
    (base opt pess : ScenarioParams)
    (hb : buildScenarios a = some [base, opt, pess]) :
    base.growth_rate < opt.growth_rate ∧
    pess.growth_rate < base.growth_rate ∧
    opt.wacc < base.wacc ∧ base.wacc < pess.wacc := by
  cases hmb : mkScenarioParams "Base" a.growth_rate a.wacc with
  | none => rw [buildScenarios, hmb] at hb; simp at hb
  | some b =>
    cases hmo : mkScenarioParams "Optimistic"
        (a.growth_rate + a.optimistic_growth_delta)
        (max (1/100) (a.wacc - a.optimistic_wacc_delta)) with
    | none => rw [buildScenarios, hmb, hmo] at hb; simp at hb
    | some o =>
      cases hmp : mkScenarioParams "Pessimistic"
          (a.growth_rate - a.pessimistic_growth_delta)
          (min (99/100) (a.wacc + a.pessimistic_wacc_delta)) with
      | none => rw [buildScenarios, hmb, hmo, hmp] at hb; simp at hb
      | some p =>
        rw [buildScenarios, hmb, hmo, hmp] at hb
        simp at hb
        obtain ⟨h1b, h1o, h1p⟩ := hb
        subst h1b h1o h1p
        rw [mkScenarioParams_some_inv hmb, mkScenarioParams_some_inv hmo,
          mkScenarioParams_some_inv hmp]
        refine ⟨lt_add_of_pos_right _ h1, sub_lt_self _ h2, ?_, ?_⟩
        · exact max_lt hlo (sub_lt_self _ h3)
        · exact lt_min hhi (lt_add_of_pos_right _ h4)

/-- Witness for C7 on the spec's scenario-expansion example. -/
theorem claim7_scenario_ordering_witness :
    (⟨"Base", 8/100, 1/10⟩ : ScenarioParams).growth_rate <
      (⟨"Optimistic", 9/100, 19/200⟩ : ScenarioParams).growth_rate ∧
    (⟨"Pessimistic", 6/100, 11/100⟩ : ScenarioParams).growth_rate <
      (⟨"Base", 8/100, 1/10⟩ : ScenarioParams).growth_rate ∧
    (⟨"Optimistic", 9/100, 19/200⟩ : ScenarioParams).wacc <
      (⟨"Base", 8/100, 1/10⟩ : ScenarioParams).wacc ∧
    (⟨"Base", 8/100, 1/10⟩ : ScenarioParams).wacc <
      (⟨"Pessimistic", 6/100, 11/100⟩ : ScenarioParams).wacc :=
  claim7_scenario_ordering
    { starting_revenue := 1000000, growth_rate := 8/100
      gross_margin := 1/2, opex_pct := 3/10, tax_rate := 21/100
      wacc := 1/10, capex_pct := 5/100, delta_nwc_pct := 2/100
      terminal_growth := 2/100, years := 5
      optimistic_growth_delta := 1/100, pessimistic_growth_delta := 2/100
      optimistic_wacc_delta := 1/200, pessimistic_wacc_delta := 1/100 }
    (by decide) (by norm_num) (by norm_num) (by norm_num) (by norm_num)
    (by norm_num) (by norm_num) _ _ _ (by decide)

/-! ## NPV monotonicity in the discount rate (C8) -/

/-- Per-unit-of-revenue FCFF margin implied by `_calculate_fcff`. -/
def unitMargin (a : Assumptions) : ℚ :=
  (a.gross_margin - a.opex_pct) * (1 - a.tax_rate) - a.capex_pct -
    a.delta_nwc_pct

theorem projectRevenuesAux_pos {g : ℚ} (hg : 0 ≤ g) :
    ∀ (n : ℕ) (c : ℚ), 0 < c → ∀ x ∈ projectRevenuesAux g c n, 0 < x := by
  intro n
  induction n with
  | zero => intro c _ x hx; simp [projectRevenuesAux] at hx
  | succ n ih =>
    intro c hc x hx
    have hc' : 0 < c * (1 + g) := mul_pos hc (by linarith)
    simp only [projectRevenuesAux, List.mem_cons] at hx
    rcases hx with hx | hx
    · rw [hx]; exact hc'
    · exact ih (c * (1 + g)) hc' x hx

theorem calculateFCFF_mem {a : Assumptions} {l : List ℚ} {x : ℚ}
    (hx : x ∈ calculateFCFF a l) : ∃ r ∈ l, x = r * unitMargin a := by
  simp only [calculateFCFF, List.mem_map] at hx
  obtain ⟨r, hr, hrx⟩ := hx
  refine ⟨r, hr, ?_⟩
  rw [← hrx, unitMargin]
  ring

theorem calculateFCFF_pos {a : Assumptions} {l : List ℚ}
    (hm : 0 < unitMargin a) (hl : ∀ r ∈ l, 0 < r) :
    ∀ x ∈ calculateFCFF a l, 0 < x := by
  intro x hx
  obtain ⟨r, hr, hrx⟩ := calculateFCFF_mem hx
  rw [hrx]
  exact mul_pos (hl r hr) hm

theorem discountAux_sum_le {w1 w2 : ℚ} (h1 : -1 < w1) (h12 : w1 < w2) :
    ∀ (l : List ℚ) (k : ℕ), 1 ≤ k → (∀ x ∈ l, 0 < x) →
      (discountAux w2 l k).sum ≤ (discountAux w1 l k).sum := by
  intro l
  induction l with
  | nil => intro k _ _; simp [discountAux]
  | cons v vs ih =>
    intro k hk hpos
    have hv : 0 < v := hpos v (List.mem_cons_self v vs)
    have hw1 : (0 : ℚ) < 1 + w1 := by linarith
    have hpowlt : (1 + w1) ^ k < (1 + w2) ^ k :=
      pow_lt_pow_left₀ (by linarith) (le_of_lt hw1) (by omega)
    have hhead : v / (1 + w2) ^ k ≤ v / (1 + w1) ^ k :=
      le_of_lt (div_lt_div_of_pos_left hv (pow_pos hw1 k) hpowlt)
    have htail := ih (k + 1) (by omega)
      (fun x hx => hpos x (List.mem_cons_of_mem v hx))
    simp only [discountAux, List.sum_cons]
    exact add_le_add hhead htail

theorem discountAux_sum_lt {w1 w2 : ℚ} (h1 : -1 < w1) (h12 : w1 < w2)
    {v : ℚ} {vs : List ℚ} (k : ℕ) (hk : 1 ≤ k)
    (hpos : ∀ x ∈ v :: vs, 0 < x) :
    (discountAux w2 (v :: vs) k).sum < (discountAux w1 (v :: vs) k).sum := by
  have hv : 0 < v := hpos v (List.mem_cons_self v vs)
  have hw1 : (0 : ℚ) < 1 + w1 := by linarith
  have hpowlt : (1 + w1) ^ k < (1 + w2) ^ k :=
    pow_lt_pow_left₀ (by linarith) (le_of_lt hw1) (by omega)
  have hhead : v / (1 + w2) ^ k < v / (1 + w1) ^ k :=
    div_lt_div_of_pos_left hv (pow_pos hw1 k) hpowlt
  have htail := discountAux_sum_le h1 h12 vs (k + 1) (by omega)
    (fun x hx => hpos x (List.mem_cons_of_mem v hx))
  simp only [discountAux, List.sum_cons]
  exact add_lt_add_of_lt_of_le hhead htail

/-- The discounted terminal value is strictly antitone in WACC for a
positive last FCFF. -/
theorem terminal_term_lt {lf tg w1 w2 : ℚ} (n : ℕ) (hlf : 0 < lf)
    (htg1 : -1 < tg) (htg : tg < w1) (h12 : w1 < w2) :
    lf * (1 + tg) / (w2 - tg) / (1 + w2) ^ n <
      lf * (1 + tg) / (w1 - tg) / (1 + w1) ^ n := by
  have hA : 0 < lf * (1 + tg) := mul_pos hlf (by linarith)
  have hw1 : (0 : ℚ) < 1 + w1 := by linarith
  have hw2 : (0 : ℚ) < 1 + w2 := by linarith
  have hb1 : 0 < (w1 - tg) * (1 + w1) ^ n :=
    mul_pos (by linarith) (pow_pos hw1 n)
  have hblt : (w1 - tg) * (1 + w1) ^ n < (w2 - tg) * (1 + w2) ^ n := by
    have hpow : (1 + w1) ^ n ≤ (1 + w2) ^ n :=
      pow_le_pow_left₀ (le_of_lt hw1) (by linarith) n
    calc (w1 - tg) * (1 + w1) ^ n
        < (w2 - tg) * (1 + w1) ^ n := by
          exact mul_lt_mul_of_pos_right (by linarith) (pow_pos hw1 n)
      _ ≤ (w2 - tg) * (1 + w2) ^ n :=
          mul_le_mul_of_nonneg_left hpow (by linarith)
  rw [div_div, div_div]
  exact div_lt_div_of_pos_left hA hb1 hblt

/-- Unpacks the construction-time validation facts needed below. -/
theorem assumptionsValid_bounds {a : Assumptions}
    (h : assumptionsValid a = true) :
    0 < a.starting_revenue ∧ 1 ≤ a.years ∧ -(1/20) ≤ a.terminal_growth := by
  simp only [assumptionsValid, fieldRangesOk, Bool.and_eq_true,
    decide_eq_true_eq] at h
  tauto

/-- C8 (amended): for validated assumptions with a positive per-unit
FCFF margin and nonnegative growth, and scenario WACCs above terminal
growth differing only in the rate, the lower-WACC run has the strictly
higher NPV. -/
theorem claim8_npv_antitone_in_wacc (a : Assumptions)
    (s1 s2 : ScenarioParams) (hv : assumptionsValid a = true)
    (hg : 0 ≤ s1.growth_rate) (hgeq : s2.growth_rate = s1.growth_rate)
    (hm : 0 < unitMargin a) (htg : a.terminal_growth < s1.wacc)
    (h12 : s1.wacc < s2.wacc) :
    ∃ r1 r2, run_dcf a s1 = some r1 ∧ run_dcf a s2 = some r2 ∧
      r2.npv < r1.npv := by
  obtain ⟨hstart, hyears, htgbound⟩ := assumptionsValid_bounds hv
  have htg2 : a.terminal_growth < s2.wacc := lt_trans htg h12
  obtain ⟨lf1, hlf1, hrun1⟩ := run_dcf_some a s1 hyears htg
  obtain ⟨lf2, hlf2, hrun2⟩ := run_dcf_some a s2 hyears htg2
  rw [hgeq] at hlf2 hrun2
  have hlfeq : lf2 = lf1 := by
    rw [hlf1] at hlf2
    exact (Option.some_injective _ hlf2).symm
  subst hlfeq
  refine ⟨_, _, hrun1, hrun2, ?_⟩
  simp only
  set revenues := projectRevenues a.starting_revenue s1.growth_rate a.years
    with hrevdef
  set fcff := calculateFCFF a revenues with hfcffdef
  have hrevpos : ∀ x ∈ revenues, 0 < x :=
    projectRevenuesAux_pos hg a.years a.starting_revenue hstart
  have hfcffpos : ∀ x ∈ fcff, 0 < x := calculateFCFF_pos hm hrevpos
  have hlfpos : 0 < lf2 := by
    have hmem : lf2 ∈ fcff := by
      obtain ⟨hne, hget⟩ := List.mem_getLast?_eq_getLast
        (show lf2 ∈ fcff.getLast? from hlf1)
      rw [hget]
      exact List.getLast_mem hne
    exact hfcffpos lf2 hmem
  have htg1 : (-1 : ℚ) < a.terminal_growth := lt_of_lt_of_le (by norm_num)
    htgbound
  have hw1 : (-1 : ℚ) < s1.wacc := lt_trans htg1 htg
  have hfcffne : ∃ v vs, fcff = v :: vs := by
    have hlen : fcff.length = a.years := by
      rw [hfcffdef, calculateFCFF_length, hrevdef, projectRevenues_length]
    cases hfc : fcff with
    | nil => rw [hfc] at hlen; simp at hlen; omega
    | cons v vs => exact ⟨v, vs, rfl⟩
  obtain ⟨v, vs, hvvs⟩ := hfcffne
  have hsumlt : (discount fcff s2.wacc).sum < (discount fcff s1.wacc).sum := by
    rw [hvvs]
    exact discountAux_sum_lt hw1 h12 1 le_rfl (hvvs ▸ hfcffpos)
  have htvlt := terminal_term_lt a.years hlfpos htg1 htg h12
  exact add_lt_add hsumlt htvlt

/-- An otherwise-valid assumption set whose cost structure makes every
FCFF negative (per-unit margin −0.45). -/
def negMarginAssumptions : Assumptions :=
  { starting_revenue := 100, growth_rate := 0
    gross_margin := 3/10, opex_pct := 3/5, tax_rate := 0
    wacc := 1/10, capex_pct := 1/10, delta_nwc_pct := 1/20
    terminal_growth := 1/50, years := 1
    optimistic_growth_delta := 1/100, pessimistic_growth_delta := 1/100
    optimistic_wacc_delta := 1/100, pessimistic_wacc_delta := 1/100 }

/-- C8 counterexample: on a validated assumption set with nonnegative
growth whose FCFF is negative, both WACCs well above terminal growth
0.02, the engine's NPV at WACC 0.08 (−750) is strictly LOWER than at
WACC 0.14 (−375) — NPV is not monotonically decreasing in the discount
rate. -/
theorem claim8_counterexample :
    assumptionsValid negMarginAssumptions = true ∧
    0 ≤ negMarginAssumptions.growth_rate ∧
    negMarginAssumptions.terminal_growth < 2/25 ∧ (2/25 : ℚ) < 7/50 ∧
    (run_dcf negMarginAssumptions ⟨"Low", 0, 2/25⟩).map ScenarioResult.npv =
      some (-750) ∧
    (run_dcf negMarginAssumptions ⟨"High", 0, 7/50⟩).map ScenarioResult.npv =
      some (-375) ∧
    ¬ ((-375 : ℚ) < -750) := by
  refine ⟨by decide, by decide, by norm_num [negMarginAssumptions],
    by norm_num, by decide, by decide, by norm_num⟩

/-- Witness for C8 on the spec's example assumptions at WACC 0.08
versus 0.14. -/
theorem claim8_npv_antitone_in_wacc_witness :
    ∃ r1 r2,
      run_dcf
        { starting_revenue := 1000000, growth_rate := 8/100
          gross_margin := 1/2, opex_pct := 3/10, tax_rate := 21/100
          wacc := 1/10, capex_pct := 5/100, delta_nwc_pct := 2/100
          terminal_growth := 2/100, years := 5
          optimistic_growth_delta := 2/100
          pessimistic_growth_delta := 2/100
          optimistic_wacc_delta := 1/100
          pessimistic_wacc_delta := 1/100 }
        ⟨"Low", 8/100, 2/25⟩ = some r1 ∧
      run_dcf
        { starting_revenue := 1000000, growth_rate := 8/100
          gross_margin := 1/2, opex_pct := 3/10, tax_rate := 21/100
          wacc := 1/10, capex_pct := 5/100, delta_nwc_pct := 2/100
          terminal_growth := 2/100, years := 5
          optimistic_growth_delta := 2/100
          pessimistic_growth_delta := 2/100
          optimistic_wacc_delta := 1/100
          pessimistic_wacc_delta := 1/100 }
        ⟨"High", 8/100, 7/50⟩ = some r2 ∧
      r2.npv < r1.npv :=
  claim8_npv_antitone_in_wacc _ _ _ (by decide) (by decide) rfl
    (by norm_num [unitMargin]) (by norm_num) (by norm_num)

/-! ## The sensitivity sweep (C9, C10) -/

theorem roundHalfEven_bounds (y : ℚ) :
    y - 1/2 ≤ (roundHalfEven y : ℚ) ∧ (roundHalfEven y : ℚ) ≤ y + 1/2 := by
  have hf1 : (↑⌊y⌋ : ℚ) ≤ y := Int.floor_le y
  have hf2 : y < ↑⌊y⌋ + 1 := Int.lt_floor_add_one y
  unfold roundHalfEven
  split_ifs with h1 h2 h3
  all_goals constructor
  all_goals push_cast
  all_goals linarith

theorem round3_bounds (x : ℚ) :
    x - 1/2000 ≤ round3 x ∧ round3 x ≤ x + 1/2000 := by
  obtain ⟨hlo, hhi⟩ := roundHalfEven_bounds (1000 * x)
  rw [round3]
  constructor <;> linarith

/-- Consecutive rungs of the rounded 0.005-spaced WACC ladder differ by
between 0.004 and 0.006. -/
theorem sweep_ladder_diff (s : ℚ) (k : ℕ) :
    4/1000 ≤ round3 (s + (k + 1 : ℕ) * (5/1000)) -
        round3 (s + k * (5/1000)) ∧
      round3 (s + (k + 1 : ℕ) * (5/1000)) - round3 (s + k * (5/1000)) ≤
        6/1000 := by
  have hcast : s + ((k + 1 : ℕ) : ℚ) * (5/1000) =
      (s + (k : ℚ) * (5/1000)) + 5/1000 := by
    push_cast
    ring
  obtain ⟨h1lo, h1hi⟩ := round3_bounds (s + (k : ℚ) * (5/1000))
  obtain ⟨h2lo, h2hi⟩ := round3_bounds ((s + (k : ℚ) * (5/1000)) + 5/1000)
  rw [hcast]
  constructor <;> linarith

/-- Inversion of a successful `Option`-valued `mapM`: the output has the
input's length and is pointwise produced by the function. -/
theorem mapM_some_shape {α β : Type} (f : α → Option β) :
    ∀ (l : List α) (res : List β), l.mapM f = some res →
      res.length = l.length ∧ ∀ i : ℕ, i < l.length →
        ∃ x y, l[i]? = some x ∧ res[i]? = some y ∧ f x = some y := by
  intro l
  induction l with
  | nil =>
    intro res h
    rw [List.mapM_nil] at h
    cases h
    exact ⟨rfl, fun i hi => absurd hi (by simp)⟩
  | cons a l ih =>
    intro res h
    rw [List.mapM_cons] at h
    cases hfa : f a with
    | none => rw [hfa] at h; simp at h
    | some b =>
      rw [hfa] at h
      cases hml : l.mapM f with
      | none => rw [hml] at h; simp at h
      | some bs =>
        rw [hml] at h
        simp at h
        subst h
        obtain ⟨hlen, hpt⟩ := ih bs hml
        refine ⟨by simp [hlen], ?_⟩
        intro i hi
        cases i with
        | zero => exact ⟨a, b, by simp, by simp, hfa⟩
        | succ i =>
          obtain ⟨x, y, hx, hy, hfx⟩ := hpt i (by simpa using hi)
          exact ⟨x, y, by simpa using hx, by simpa using hy, hfx⟩

/-- The swept WACC list is the rounded ladder, pointwise. -/
theorem sweepWaccs_getElem? (w : ℚ) (k : ℕ) (hk : k < sweepCount w) :
    (sweepWaccs w)[k]? = some (round3 (sweepStart w + k * (5/1000))) := by
  rw [sweepWaccs, List.getElem?_map, List.getElem?_range hk]
  rfl

theorem sweepWaccs_length (w : ℚ) :
    (sweepWaccs w).length = sweepCount w := by
  simp [sweepWaccs]

/-- C9 (amended): whenever every swept valuation succeeds, the sweep
emits one point per `np.arange` rung — exactly those `k` whose
unrounded WACC `start + 0.005k` lies below `stop + 0.0001` — each WACC
being the half-even 3-decimal rounding of its rung (so within 0.0005 of
it), each NPV being the engine's NPV at that WACC under the baseline's
name and growth rate, and the WACCs strictly increasing with
consecutive gaps between 0.004 and 0.006 (the gap can deviate from
0.005 where the rounding breaks a half-way tie). -/
theorem claim9_sensitivity_sweep (a : Assumptions) (s : ScenarioParams)
    (pts : List SensitivityPoint) (h : sensitivityRun a s = some pts) :
    pts.length = sweepCount s.wacc ∧
    (∀ k : ℕ, k < pts.length ↔
      sweepStart s.wacc + k * (5/1000) < sweepStop s.wacc + 1/10000) ∧
    (∀ k : ℕ, k < pts.length → ∃ pt, pts[k]? = some pt ∧
      pt.wacc = round3 (sweepStart s.wacc + k * (5/1000)) ∧
      pt.wacc - (sweepStart s.wacc + k * (5/1000)) ≤ 1/2000 ∧
      (sweepStart s.wacc + k * (5/1000)) - pt.wacc ≤ 1/2000 ∧
      ∃ p r, mkScenarioParams s.name s.growth_rate pt.wacc = some p ∧
        run_dcf a p = some r ∧ pt.npv = r.npv) ∧
    (∀ k : ℕ, k + 1 < pts.length → ∃ pt pt', pts[k]? = some pt ∧
      pts[k + 1]? = some pt' ∧ pt.wacc < pt'.wacc ∧
      4/1000 ≤ pt'.wacc - pt.wacc ∧ pt'.wacc - pt.wacc ≤ 6/1000) := by
  obtain ⟨hlen, hpt⟩ := mapM_some_shape _ _ _ h
  rw [sweepWaccs_length] at hlen
  have hpoint : ∀ k : ℕ, k < pts.length → ∃ pt, pts[k]? = some pt ∧
      pt.wacc = round3 (sweepStart s.wacc + k * (5/1000)) ∧
      ∃ p r, mkScenarioParams s.name s.growth_rate pt.wacc = some p ∧
        run_dcf a p = some r ∧ pt.npv = r.npv := by
    intro k hk
    obtain ⟨x, y, hx, hy, hfx⟩ := hpt k (by rw [sweepWaccs_length]; omega)
    rw [sweepWaccs_getElem? s.wacc k (by omega)] at hx
    have hxval : x = round3 (sweepStart s.wacc + k * (5/1000)) :=
      Option.some_injective _ hx.symm
    subst hxval
    cases hmk : mkScenarioParams s.name s.growth_rate
        (round3 (sweepStart s.wacc + k * (5/1000))) with
    | none => rw [hmk] at hfx; simp at hfx
    | some p =>
      rw [hmk] at hfx
      simp only [Option.bind_eq_bind, Option.some_bind] at hfx
      cases hrd : run_dcf a p with
      | none => rw [hrd] at hfx; simp at hfx
      | some r =>
        rw [hrd] at hfx
        simp only [Option.bind_eq_bind, Option.some_bind,
          Option.some.injEq] at hfx
        refine ⟨y, hy, ?_, p, r, ?_, hrd, ?_⟩
        · rw [← hfx]
        · rw [← hfx]; exact hmk
        · rw [← hfx]
  refine ⟨hlen, ?_, ?_, ?_⟩
  · intro k
    rw [hlen, sweepCount, Int.lt_toNat, Int.lt_ceil]
    constructor <;> intro hlt <;> push_cast at hlt ⊢ <;> linarith
  · intro k hk
    obtain ⟨pt, hpt', hw, hrest⟩ := hpoint k hk
    obtain ⟨hlo, hhi⟩ := round3_bounds (sweepStart s.wacc + k * (5/1000))
    exact ⟨pt, hpt', hw, by rw [hw]; linarith, by rw [hw]; linarith, hrest⟩
  · intro k hk
    obtain ⟨pt, hpt1, hw1, _⟩ := hpoint k (by omega)
    obtain ⟨pt', hpt2, hw2, _⟩ := hpoint (k + 1) hk
    obtain ⟨hdlo, hdhi⟩ := sweep_ladder_diff (sweepStart s.wacc) k
    rw [← hw1, ← hw2] at hdlo hdhi
    exact ⟨pt, pt', hpt1, hpt2, by linarith, hdlo, hdhi⟩

/-- An otherwise-valid assumption set with baseline WACC 1/16 = 0.0625,
whose sweep rungs all fall on exact half-way rounding ties; its costs
make every FCFF negative so each run's IRR short-circuits to absent. -/
def tieWaccAssumptions : Assumptions :=
  { starting_revenue := 100, growth_rate := 0
    gross_margin := 3/10, opex_pct := 3/5, tax_rate := 0
    wacc := 1/16, capex_pct := 1/10, delta_nwc_pct := 1/20
    terminal_growth := 0, years := 1
    optimistic_growth_delta := 1/100, pessimistic_growth_delta := 1/100
    optimistic_wacc_delta := 1/100, pessimistic_wacc_delta := 1/100 }

/-- C9 counterexample: at baseline WACC 0.0625 every valuation run
succeeds, yet the first two emitted WACCs are 0.022 and 0.028 — spaced
0.006, not 0.005 — because `np.round`'s half-to-even rounding of the
tie 22.5 rounds down while 27.5 rounds up. -/
theorem claim9_counterexample :
    assumptionsValid tieWaccAssumptions = true ∧
    (sensitivityRun tieWaccAssumptions ⟨"Base", 0, 1/16⟩).map
        (fun pts => pts.map SensitivityPoint.wacc) =
      some [11/500, 7/250, 4/125, 19/500, 21/500, 6/125, 13/250, 29/500,
        31/500, 17/250, 9/125, 39/500, 41/500, 11/125, 23/250, 49/500,
        51/500] ∧
    (7/250 : ℚ) - 11/500 ≠ 5/1000 := by
  refine ⟨by decide, by decide, by norm_num⟩

/-- Witness for C9 on the baseline-WACC-0.0625 sweep, whose 17 runs all
succeed. -/
theorem claim9_sensitivity_sweep_witness :
    ((sensitivityRun tieWaccAssumptions ⟨"Base", 0, 1/16⟩).getD []).length =
        sweepCount (1/16) ∧
    (∀ k : ℕ,
      k < ((sensitivityRun tieWaccAssumptions ⟨"Base", 0, 1/16⟩).getD
          []).length ↔
      sweepStart (1/16) + k * (5/1000) < sweepStop (1/16) + 1/10000) ∧
    (∀ k : ℕ,
      k < ((sensitivityRun tieWaccAssumptions ⟨"Base", 0, 1/16⟩).getD
          []).length →
      ∃ pt, ((sensitivityRun tieWaccAssumptions ⟨"Base", 0, 1/16⟩).getD
          [])[k]? = some pt ∧
        pt.wacc = round3 (sweepStart (1/16) + k * (5/1000)) ∧
        pt.wacc - (sweepStart (1/16) + k * (5/1000)) ≤ 1/2000 ∧
        (sweepStart (1/16) + k * (5/1000)) - pt.wacc ≤ 1/2000 ∧
        ∃ p r, mkScenarioParams "Base" 0 pt.wacc = some p ∧
          run_dcf tieWaccAssumptions p = some r ∧ pt.npv = r.npv) ∧
    (∀ k : ℕ,
      k + 1 < ((sensitivityRun tieWaccAssumptions ⟨"Base", 0, 1/16⟩).getD
          []).length →
      ∃ pt pt', ((sensitivityRun tieWaccAssumptions ⟨"Base", 0, 1/16⟩).getD
          [])[k]? = some pt ∧
        ((sensitivityRun tieWaccAssumptions ⟨"Base", 0, 1/16⟩).getD
          [])[k + 1]? = some pt' ∧ pt.wacc < pt'.wacc ∧
        4/1000 ≤ pt'.wacc - pt.wacc ∧ pt'.wacc - pt.wacc ≤ 6/1000) :=
  claim9_sensitivity_sweep tieWaccAssumptions ⟨"Base", 0, 1/16⟩
    ((sensitivityRun tieWaccAssumptions ⟨"Base", 0, 1/16⟩).getD [])
    (by decide)

/-- An assumption set accepted by construction with WACC 0.06 strictly
above terminal growth 0.05, but with the sweep's lower end
max(0.02, 0.06 − 0.04) = 0.02 at or below the terminal growth. -/
def lowHeadroomAssumptions : Assumptions :=
  { starting_revenue := 100, growth_rate := 0
    gross_margin := 1/2, opex_pct := 3/10, tax_rate := 0
    wacc := 3/50, capex_pct := 1/20, delta_nwc_pct := 1/50
    terminal_growth := 1/20, years := 1
    optimistic_growth_delta := 1/100, pessimistic_growth_delta := 1/100
    optimistic_wacc_delta := 1/100, pessimistic_wacc_delta := 1/100 }

/-- C10: there are construction-valid assumptions with WACC strictly
above terminal growth (0.06 vs 0.05) on which the sensitivity sweep
raises the terminal-value domain error instead of producing points: the
lowest swept WACC, max(0.02, 0.06 − 0.04) = 0.02, is at or below the
terminal growth, and the engine re-checks WACC > terminal growth on
every swept value. -/
theorem claim10_sweep_hits_domain_error :
    assumptionsValid lowHeadroomAssumptions = true ∧
    lowHeadroomAssumptions.terminal_growth < lowHeadroomAssumptions.wacc ∧
    sweepStart lowHeadroomAssumptions.wacc ≤
      lowHeadroomAssumptions.terminal_growth ∧
    sensitivityRun lowHeadroomAssumptions
      ⟨"Base", 0, lowHeadroomAssumptions.wacc⟩ = none := by
  refine ⟨by decide, by decide, by decide, by decide⟩

end

end DCF
